import Mathlib

/-!
Verification of the orchestration core of the `globus-transfer` CLI
(`src/globus/cli.py`): the task-wait retry loop (`wait_for_task_or_exit`),
the transfer-specification parsing loop of the `transfer` command, the
endpoint activation orchestrator (`activate_endpoints_or_exit`,
`activate_endpoints_automatically`, `activate_endpoints_manually`) and the
hold-resolution `release` command.

External collaborators (the Globus transfer service, the HTCondor job
records, terminal interactivity) are modelled as explicit environment
records; the helper modules `jobs.py`, `endpoints.py`, `constants.py` of
the repository are not under `src/`, so their small interfaces
(`get_globus_jobs`, `set_job_attr`, `EndpointInfo.get_or_exit`, the exit
code constants) are modelled from the specification, as noted at each
definition.
-/

/-- Process exit codes used by the modelled commands.  Modelled from the
spec: `constants.py` is not under `src/`; the spec (section 7) only
requires the codes to be distinct, so they are distinct constructors. -/
inductive ExitCode
  | authorizationError
  | endpointActivationError
  | waitTaskTimeout
  | waitTaskError
  deriving DecidableEq, Repr

/- ## Task Wait Orchestrator (`wait_for_task_or_exit`, cli.py lines 836-861) -/

/-- Result of one `transfer_client.task_wait` poll attempt: the task
reached a terminal state, it did not within the timeout, or the call
raised `globus_sdk.TransferAPIError` (a transient transfer-API error). -/
inductive PollResult
  | done
  | notDone
  | transientError
  deriving DecidableEq, Repr

/-- Terminal outcome of `wait_for_task_or_exit`, with the number of poll
calls that were made: the function returns normally (task done), or the
process exits via `error(...)` with an exit code. -/
inductive WaitOutcome
  | success (attemptsUsed : Nat)
  | failed (code : ExitCode) (attemptsUsed : Nat)
  deriving DecidableEq, Repr

/-- The retry loop body of `wait_for_task_or_exit`.  State: `a` = value of
the `attempts` counter so far, `errored` = the soft-failure flag.  Each
iteration increments `attempts`, polls once (`poll a` is the result of
poll call number `a + 1`), records a transient error in `errored` without
aborting, returns on `done`, and exits once `attempts >= max_attempts`
with `WAIT_TASK_TIMEOUT` if no transient error was seen and
`WAIT_TASK_ERROR` otherwise.  `max_attempts` is a Python `int`, hence
`Int` here. -/
def waitGo (poll : Nat → PollResult) (maxAttempts : Int) (a : Nat) (errored : Bool) :
    WaitOutcome :=
  let r := poll a
  let errored' := errored || decide (r = PollResult.transientError)
  if r = PollResult.done then
    .success (a + 1)
  else if ((a + 1 : Nat) : Int) ≥ maxAttempts then
    .failed (if errored' then .waitTaskError else .waitTaskTimeout) (a + 1)
  else
    waitGo poll maxAttempts (a + 1) errored'
termination_by (maxAttempts - (a : Int)).toNat
decreasing_by
  rename_i h2
  simp at h2
  omega

/-- `wait_for_task_or_exit` (cli.py lines 836-861): starts the loop with
`attempts = 0`, `done = False`, `errored = False`. -/
def wait_for_task_or_exit (poll : Nat → PollResult) (maxAttempts : Int) : WaitOutcome :=
  waitGo poll maxAttempts 0 false

/-- Number of poll calls made by a run of the wait loop. -/
def attemptsUsed : WaitOutcome → Nat
  | .success n => n
  | .failed _ n => n

/-- `true` when some poll with index `i`, `a ≤ i < n`, raises a transient
error. -/
def anyTransient (poll : Nat → PollResult) (a n : Nat) : Bool :=
  (List.range' a (n - a)).any fun i => decide (poll i = PollResult.transientError)

/- ## Transfer specification parsing (`transfer`, cli.py lines 591-604) -/

/-- Helper for `pySplit`: split a character list on every occurrence of
`sep`, keeping empty pieces, accumulating the current piece reversed. -/
def splitCharsAux (sep : Char) : List Char → List Char → List (List Char)
  | [], cur => [cur.reverse]
  | c :: cs, cur =>
    if c = sep then cur.reverse :: splitCharsAux sep cs []
    else splitCharsAux sep cs (c :: cur)

/-- Python `t.split(sep)` for a single-character separator: splits on
every occurrence, keeps empty pieces, and yields `[t]` when `sep` does not
occur (in particular `[""]` on the empty string). -/
def pySplit (sep : Char) (t : String) : List String :=
  (splitCharsAux sep t.data []).map List.asString

/-- Python `s[-1] == "/"`: `true` when the string is nonempty and its last
character is a slash.  (On the empty string Python raises `IndexError`
instead; callers model that case separately.) -/
def endsWithSlash (s : String) : Bool :=
  match s.data.getLast? with
  | some c => decide (c = '/')
  | none => false

/-- One item added to the `TransferData` of the `transfer` command: a
single-file transfer or a recursive directory transfer. -/
inductive ParseItem
  | fileItem (src dst : String)
  | dirItem (src dst : String)
  deriving DecidableEq, Repr

/-- Outcome of the validation loop over the transfer specifications
(cli.py lines 591-604), which runs before `activate_endpoints_or_exit`
and before `tc.submit_transfer`:
`ok` = every spec was accepted and its items added;
`invalidSpec t` = the loop called `error(..., INVALID_TRANSFER_SPECIFICATION_ERROR)`
on spec `t`;
`pythonError t` = the loop raised an unhandled Python exception on spec
`t` (a `ValueError` from `src, dst = t.split(":")` when the split does not
have exactly two parts, or an `IndexError` from `src[-1]` / `dst[-1]` when
a part is empty). -/
inductive ParseOutcome
  | ok (items : List ParseItem)
  | invalidSpec (t : String)
  | pythonError (t : String)
  deriving DecidableEq, Repr

/-- The `for t in transfers` validation loop of the `transfer` command,
translated clause by clause: two-way unpack of `t.split(":")`, then
`src[-1] == dst[-1] == "/"` (directory transfer, recursive), then
`src[-1] == "/" or dst[-1] == "/"` (malformed, error exit), else a file
transfer.  Python evaluates `src[-1]` (and then `dst[-1]`) inside the
first condition, so an empty side raises before any comparison. -/
def parseSpecs : List String → ParseOutcome
  | [] => .ok []
  | t :: rest =>
    match pySplit ':' t with
    | [src, dst] =>
      if src.data.isEmpty || dst.data.isEmpty then .pythonError t
      else if endsWithSlash src && endsWithSlash dst then
        match parseSpecs rest with
        | .ok items => .ok (.dirItem src dst :: items)
        | e => e
      else if endsWithSlash src || endsWithSlash dst then .invalidSpec t
      else
        match parseSpecs rest with
        | .ok items => .ok (.fileItem src dst :: items)
        | e => e
    | _ => .pythonError t

/-- A transfer spec that splits on `:` into exactly two nonempty parts:
the domain on which the validation loop is exception-free. -/
def wellFormedSpec (t : String) : Bool :=
  match pySplit ':' t with
  | [src, dst] => !src.data.isEmpty && !dst.data.isEmpty
  | _ => false

/-- A well-formed spec where exactly one of the two sides ends with a
slash (the malformed directory transfer the code rejects). -/
def mixedSlash (t : String) : Bool :=
  match pySplit ':' t with
  | [src, dst] => endsWithSlash src ^^ endsWithSlash dst
  | _ => false

/-- The item the loop adds for an accepted well-formed spec. -/
def itemOf (t : String) : ParseItem :=
  match pySplit ':' t with
  | [src, dst] =>
    if endsWithSlash src && endsWithSlash dst then .dirItem src dst else .fileItem src dst
  | _ => .fileItem "" ""

/-- `true` exactly when the validation loop accepted every spec, i.e.
when the `transfer` command goes on to activation and to the
`tc.submit_transfer` call. -/
def parseAccepted : ParseOutcome → Bool
  | .ok _ => true
  | _ => false

/- ## Job records (HTCondor classads used as a resumable-state mailbox) -/

/-- A classad attribute value as used by the core: the explicit
`Undefined` sentinel, or a string (endpoint identifier).  The spec
(section 3) requires every `ENDPOINT_ACTIVATION_REQUIRED_<index>`
attribute to be either the sentinel or one endpoint identifier. -/
inductive AttrValue
  | undefined
  | str (s : String)
  deriving DecidableEq, Repr

/-- A job record: an ordered key/value attribute list (a classad). -/
abbrev JobAd := List (String × AttrValue)

/-- Read an attribute.  Modelled from the spec: `getAttribute(job, key)`
of the Job Record Accessor interface (section 6); `none` = the attribute
is absent from the record. -/
def getAttr : JobAd → String → Option AttrValue
  | [], _ => none
  | (k', v') :: rest, k => if k' = k then some v' else getAttr rest k

/-- Write an attribute.  Modelled from the spec: `setAttribute(job, key,
value)` of the Job Record Accessor interface (section 6), the behaviour of
`set_job_attr` from the `jobs.py` module that is not under `src/`:
replaces the value of an existing key in place, otherwise appends. -/
def setAttr : JobAd → String → AttrValue → JobAd
  | [], k, v => [(k, v)]
  | (k', v') :: rest, k, v =>
    if k' = k then (k, v) :: rest else (k', v') :: setAttr rest k v

/-- The `constants.ENDPOINT_ACTIVATION_REQUIRED` attribute-name stem.
Modelled from the spec: `constants.py` is not under `src/`; the spec
names the pattern `ENDPOINT_ACTIVATION_REQUIRED_<index>`. -/
def ENDPOINT_ACTIVATION_REQUIRED : String := "ENDPOINT_ACTIVATION_REQUIRED"

/-- The attribute key `f"{constants.ENDPOINT_ACTIVATION_REQUIRED}_{idx}"`
written by `activate_endpoints_manually` (cli.py line 828). -/
def activationKey (idx : Nat) : String :=
  ENDPOINT_ACTIVATION_REQUIRED ++ "_" ++ Nat.repr idx

/- ## Endpoint Activation Orchestrator (cli.py lines 779-833) -/

/-- Environment of one command execution: the responses of the Globus
transfer service and the interactivity of the terminal.
`initActive e` = `EndpointInfo.get_or_exit(tc, e).is_active` at the
initial filtering query of `activate_endpoints_or_exit`;
`autoCode e` = the `code` field of the `tc.endpoint_autoactivate(e)`
response;
`postActive e` = `is_active` as reported by any later status query,
unless a completed interactive manual activation of `e` has made it
active;
`manualActivatable e` = during the interactive manual-activation prompt
loop for `e`, the human operator eventually activates `e` (otherwise the
loop re-prompts forever);
`interactive` = the result of `is_interactive()`. -/
structure TransferEnv where
  initActive : String → Bool
  autoCode : String → String
  postActive : String → Bool
  manualActivatable : String → Bool
  interactive : Bool

/-- `activate_endpoints_automatically` (cli.py lines 798-806): one
`tc.endpoint_autoactivate` call per endpoint, in order; an endpoint whose
response code is `"AutoActivationFailed"` is appended to the returned
`unactivated` list.  Returns `(unactivated, calls)` where `calls` lists
the endpoints on which an auto-activation call was made, in order. -/
def activate_endpoints_automatically (env : TransferEnv) :
    List String → List String × List String
  | [] => ([], [])
  | e :: rest =>
    let r := activate_endpoints_automatically env rest
    (if env.autoCode e = "AutoActivationFailed" then e :: r.1 else r.1, e :: r.2)

/-- Mutable state threaded through the `for idx, endpoint in
enumerate(endpoints)` loop of `activate_endpoints_manually`:
`unactivated` = the accumulated return list; `record` = the current job
record written by `set_job_attr` (no `scratch_ad` argument: the record of
the invoking process); `writtenKeys` = the attribute keys written, in
order; `manualDone` = endpoints made active by a completed interactive
prompt loop; `processed` = endpoints iterated so far. -/
structure ManualState where
  unactivated : List String
  record : JobAd
  writtenKeys : List String
  manualDone : List String
  processed : List String
  deriving DecidableEq, Repr

/-- Result of `activate_endpoints_manually`: the loop finishes, or (in
interactive mode, for an endpoint that never becomes active) the prompt
loop re-prompts forever and the function never returns. -/
inductive ManualOut
  | done (r : ManualState)
  | diverge (processed : List String)
  deriving DecidableEq, Repr

/-- The loop of `activate_endpoints_manually` (cli.py lines 809-833).
Per endpoint: one `EndpointInfo.get_or_exit` query builds the activation
URL; in interactive mode the code blocks in a
`while not EndpointInfo.get_or_exit(tc, endpoint).is_active` prompt loop
(zero iterations when already active; otherwise it returns only once the
operator activates the endpoint, else it loops forever); in
non-interactive mode it writes
`set_job_attr(f"{ENDPOINT_ACTIVATION_REQUIRED}_{idx}", quote(endpoint))`
onto the current job record and appends the endpoint to `unactivated`. -/
def manualGo (env : TransferEnv) : List String → Nat → ManualState → ManualOut
  | [], _, st => .done st
  | e :: rest, idx, st =>
    if env.interactive then
      if env.postActive e || st.manualDone.contains e then
        manualGo env rest (idx + 1) { st with processed := st.processed ++ [e] }
      else if env.manualActivatable e then
        manualGo env rest (idx + 1)
          { st with manualDone := st.manualDone ++ [e], processed := st.processed ++ [e] }
      else
        .diverge (st.processed ++ [e])
    else
      manualGo env rest (idx + 1)
        { unactivated := st.unactivated ++ [e]
          record := setAttr st.record (activationKey idx) (.str e)
          writtenKeys := st.writtenKeys ++ [activationKey idx]
          manualDone := st.manualDone
          processed := st.processed ++ [e] }

/-- `activate_endpoints_manually(transfer_client, endpoints)` acting on
the given current job record. -/
def activate_endpoints_manually (env : TransferEnv) (record : JobAd)
    (endpoints : List String) : ManualOut :=
  manualGo env endpoints 0 ⟨[], record, [], [], []⟩

/-- The `unactivated` list returned by `activate_endpoints_manually`
(`[]` when the call never returns). -/
def manualUnactivated : ManualOut → List String
  | .done r => r.unactivated
  | .diverge _ => []

/-- The attribute keys written by `activate_endpoints_manually`, in order
(`[]` when the call never returns). -/
def manualWrittenKeys : ManualOut → List String
  | .done r => r.writtenKeys
  | .diverge _ => []

/-- Terminal outcome of `activate_endpoints_or_exit`:
`success fs` = the function returns `True`, after one fresh
`EndpointInfo.get_or_exit` status query per endpoint whose `is_active`
results are recorded in `fs` (the code only logs the activation expiry
from these queries);
`activationError named` = the process exits with
`ENDPOINT_ACTIVATION_ERROR` naming the endpoints `named`;
`diverge` = an interactive manual-activation prompt loop never
terminates. -/
inductive ActOutcome
  | success (finalStatuses : List (String × Bool))
  | activationError (named : List String)
  | diverge
  deriving DecidableEq, Repr

/-- Full result of `activate_endpoints_or_exit`: its outcome, the
endpoints auto-activation was called on, the endpoints the manual loop
iterated, and the current job record after any attribute writes. -/
structure ActivateResult where
  outcome : ActOutcome
  autoCalls : List String
  manualProcessed : List String
  record : JobAd
  deriving DecidableEq, Repr

/-- Manual-loop `processed` list, also for a diverging run. -/
def manualProcessedOf : ManualOut → List String
  | .done r => r.processed
  | .diverge p => p

/-- `activate_endpoints_or_exit(transfer_client, endpoints)` (cli.py
lines 779-795): filter out the endpoints already active, auto-activate
the rest, manually activate those still rejected, exit with
`ENDPOINT_ACTIVATION_ERROR` naming the remaining unactivated endpoints if
any, otherwise make one more status query per endpoint (logging its
activation expiry, without checking it) and return success. -/
def activate_endpoints_or_exit (env : TransferEnv) (record : JobAd)
    (endpoints : List String) : ActivateResult :=
  let unactivated0 := endpoints.filter fun e => !env.initActive e
  let auto := activate_endpoints_automatically env unactivated0
  match activate_endpoints_manually env record auto.1 with
  | .diverge p => ⟨.diverge, auto.2, p, record⟩
  | .done r =>
    if r.unactivated.isEmpty then
      ⟨.success (endpoints.map fun e => (e, env.postActive e || r.manualDone.contains e)),
        auto.2, r.processed, r.record⟩
    else
      ⟨.activationError r.unactivated, auto.2, r.processed, r.record⟩

/- ## Hold Resolution Resumer (`release`, cli.py lines 719-743) -/

/-- One HTCondor job record belonging to this tool, as enumerated by
`get_globus_jobs`: its cluster identifier, whether it is currently held,
and its attributes. -/
structure Job where
  clusterId : Nat
  held : Bool
  attrs : JobAd
  deriving DecidableEq, Repr

/-- Python dict insertion `d[k] = v` on an insertion-ordered dictionary:
rebinding an existing key keeps its position and replaces its value,
otherwise the pair is appended. -/
def dictInsert : List (String × String) → String → String → List (String × String)
  | [], k, v => [(k, v)]
  | (k', v') :: rest, k, v =>
    if k' = k then (k, v) :: rest else (k', v') :: dictInsert rest k v

/-- The dict comprehension of `release` (cli.py lines 730-735):
`{v: k for k, v in job.items() if k.startswith(ENDPOINT_ACTIVATION_REQUIRED)
and v is not classad.Value.Undefined}` — a mapping from endpoint
identifier to the attribute key holding it; a later attribute with the
same endpoint value overwrites the kept key. -/
def manualEndpointsOf (attrs : JobAd) : List (String × String) :=
  attrs.foldl
    (fun d p =>
      match p.2 with
      | .undefined => d
      | .str v =>
        if List.isPrefixOf ENDPOINT_ACTIVATION_REQUIRED.data p.1.data then dictInsert d v p.1
        else d)
    []

/-- Terminal outcome of the `release` command: the scan finished and the
process exits 0; or the process exited early with an error code (e.g.
`get_transfer_client_or_exit` exiting with `AUTHORIZATION_ERROR` when no
refresh token is configured, cli.py lines 766-772); or an interactive
manual-activation prompt loop never terminated. -/
inductive RelOutcome
  | exit0
  | exitedWith (code : ExitCode)
  | diverge
  deriving DecidableEq, Repr

/-- Full result of a `release` run: its outcome, the state of the scanned
job records after any write-backs, the cluster ids the scheduler was told
to release (in order), and the current job record of the release process
itself (which receives the non-interactive manual-activation writes,
`set_job_attr` being called there without `scratch_ad`). -/
structure RelResult where
  outcome : RelOutcome
  jobsAfter : List Job
  released : List Nat
  currentRecord : JobAd
  deriving DecidableEq, Repr

/-- The `for ad_idx, job in enumerate(jobs)` loop of `release` (cli.py
lines 727-743).  Per job: build the endpoint-to-key mapping; if nonempty,
obtain a transfer client (process exit with `AUTHORIZATION_ERROR` when
`hasToken` is false), run `activate_endpoints_manually` on the mapped
endpoints (its return value is discarded), then reset every kept
attribute key to `Undefined` on the job record; finally — reached in all
completing runs — instruct the scheduler to release the job.  There is no
per-job exception isolation in the source. -/
def releaseGo (env : TransferEnv) (hasToken : Bool) :
    List Job → List Job → List Nat → JobAd → RelResult
  | [], doneJobs, released, current => ⟨.exit0, doneJobs, released, current⟩
  | job :: rest, doneJobs, released, current =>
    let d := manualEndpointsOf job.attrs
    if d.isEmpty then
      releaseGo env hasToken rest (doneJobs ++ [job]) (released ++ [job.clusterId]) current
    else if !hasToken then
      ⟨.exitedWith .authorizationError, doneJobs ++ [job] ++ rest, released, current⟩
    else
      match activate_endpoints_manually env current (d.map Prod.fst) with
      | .diverge _ => ⟨.diverge, doneJobs ++ [job] ++ rest, released, current⟩
      | .done r =>
        let attrs' := d.foldl (fun a p => setAttr a p.2 .undefined) job.attrs
        releaseGo env hasToken rest (doneJobs ++ [{ job with attrs := attrs' }])
          (released ++ [job.clusterId]) r.record

/-- The `release` command (cli.py lines 719-743), acting on the job
records returned by `get_globus_jobs`.  Modelled from the spec:
`get_globus_jobs` lives in the `jobs.py` module that is not under `src/`;
per the spec interface `listOwnedJobs()` (section 6) it returns all
scheduler jobs tagged as belonging to this tool, so `jobs` here is that
full list.  `hasToken` = a refresh token is present in the settings. -/
def release (env : TransferEnv) (hasToken : Bool) (jobs : List Job)
    (currentRecord : JobAd) : RelResult :=
  releaseGo env hasToken jobs [] [] currentRecord

/- ## Auxiliary definitions for the proofs -/

/-- Decimal digit characters of `n`, most significant first; a
structurally transparent reformulation of `Nat.toDigits 10 n` used to
reason about `Nat.repr` (and hence about the `_<index>` suffixes of the
written attribute keys). -/
def myDigits (n : Nat) : List Char :=
  if h : n < 10 then [Nat.digitChar n]
  else myDigits (n / 10) ++ [Nat.digitChar (n % 10)]
decreasing_by
  omega

/-- The job-record writes performed by the non-interactive branch of
`activate_endpoints_manually` starting at enumeration index `idx`. -/
def writeKeys (record : JobAd) : Nat → List String → JobAd
  | _, [] => record
  | idx, e :: rest => writeKeys (setAttr record (activationKey idx) (.str e)) (idx + 1) rest

/- ## Lemmas about the wait loop -/

theorem anyTransient_empty (poll : Nat → PollResult) (n : Nat) :
    anyTransient poll n n = false := by
  simp [anyTransient]

theorem anyTransient_step (poll : Nat → PollResult) (a n : Nat) (h : a < n) :
    anyTransient poll a n =
      (decide (poll a = PollResult.transientError) || anyTransient poll (a + 1) n) := by
  have hn : n - a = (n - (a + 1)) + 1 := by omega
  rw [anyTransient, hn, List.range'_succ, List.any_cons]
  rfl

theorem anyTransient_eq_true_iff (poll : Nat → PollResult) (a n : Nat) :
    anyTransient poll a n = true ↔
      ∃ i, a ≤ i ∧ i < n ∧ poll i = PollResult.transientError := by
  unfold anyTransient
  rw [List.any_eq_true]
  constructor
  · rintro ⟨i, hi, hp⟩
    rw [List.mem_range'_1] at hi
    exact ⟨i, hi.1, by omega, of_decide_eq_true hp⟩
  · rintro ⟨i, h1, h2, h3⟩
    refine ⟨i, ?_, by simpa using h3⟩
    rw [List.mem_range'_1]
    omega

theorem waitGo_exhaust (poll : Nat → PollResult) (m : Int) :
    ∀ k a errored, max m.toNat 1 - a = k → a < max m.toNat 1 →
      (∀ i, a ≤ i → i < max m.toNat 1 → poll i ≠ PollResult.done) →
      waitGo poll m a errored =
        .failed
          (if errored || anyTransient poll a (max m.toNat 1) then .waitTaskError
           else .waitTaskTimeout)
          (max m.toNat 1) := by
  intro k
  induction k with
  | zero => intro a errored hk ha _; omega
  | succ k ih =>
    intro a errored hk ha hnd
    rw [waitGo]
    simp only [if_neg (hnd a le_rfl ha)]
    by_cases hlast : a + 1 = max m.toNat 1
    · have hg : ((a + 1 : Nat) : Int) ≥ m := by omega
      rw [if_pos hg, hlast]
      have : anyTransient poll a (max m.toNat 1) =
          (decide (poll a = PollResult.transientError) ||
            anyTransient poll (a + 1) (max m.toNat 1)) :=
        anyTransient_step poll a _ ha
      rw [this, hlast, anyTransient_empty, Bool.or_false]
    · have hlt : a + 1 < max m.toNat 1 := by omega
      have hg : ¬ ((a + 1 : Nat) : Int) ≥ m := by omega
      rw [if_neg hg]
      rw [ih (a + 1) (errored || decide (poll a = PollResult.transientError)) (by omega) hlt
        (fun i h1 h2 => hnd i (by omega) h2)]
      rw [Bool.or_assoc, ← anyTransient_step poll a _ ha]

theorem waitGo_attempts_le (poll : Nat → PollResult) (m : Int) :
    ∀ k a errored, max m.toNat 1 - a = k → a < max m.toNat 1 →
      attemptsUsed (waitGo poll m a errored) ≤ max m.toNat 1 := by
  intro k
  induction k with
  | zero => intro a errored hk ha; omega
  | succ k ih =>
    intro a errored hk ha
    rw [waitGo]
    by_cases hdone : poll a = PollResult.done
    · rw [if_pos hdone]; exact ha
    · rw [if_neg hdone]
      by_cases hg : ((a + 1 : Nat) : Int) ≥ m
      · rw [if_pos hg]
        by_cases hlast : a + 1 = max m.toNat 1
        · simp [attemptsUsed, hlast]
        · have : a + 1 < max m.toNat 1 := by omega
          simp only [attemptsUsed]
          omega
      · rw [if_neg hg]
        have hlt : a + 1 < max m.toNat 1 := by omega
        exact ih (a + 1) _ (by omega) hlt

/-- C1: in the Task Wait Orchestrator, a poll attempt that raises a
transient transfer-API error does not abort the retry loop — it only sets
the soft-failure flag and the loop proceeds; when all
`max(max_attempts, 1)` attempts are exhausted without the task reaching
done, the command exits with `WAIT_TASK_TIMEOUT` if no attempt raised a
transient error and with `WAIT_TASK_ERROR` if at least one attempt did
(in both cases after the full `max(max_attempts, 1)` poll calls, so an
error in the middle of the sequence did not cut the loop short). -/
theorem C1_wait_exhaustion_codes (poll : Nat → PollResult) (m : Int)
    (hnd : ∀ i, i < max m.toNat 1 → poll i ≠ PollResult.done) :
    ((∀ i, i < max m.toNat 1 → poll i ≠ PollResult.transientError) →
      wait_for_task_or_exit poll m =
        .failed .waitTaskTimeout (max m.toNat 1)) ∧
    ((∃ i, i < max m.toNat 1 ∧ poll i = PollResult.transientError) →
      wait_for_task_or_exit poll m =
        .failed .waitTaskError (max m.toNat 1)) := by
  have h0 : (0 : Nat) < max m.toNat 1 := by omega
  have hmain := waitGo_exhaust poll m (max m.toNat 1 - 0) 0 false rfl h0
    (fun i _ h2 => hnd i h2)
  rw [wait_for_task_or_exit]
  constructor
  · intro hnone
    have : anyTransient poll 0 (max m.toNat 1) = false := by
      by_contra hc
      have := (anyTransient_eq_true_iff poll 0 (max m.toNat 1)).1
        (Bool.of_not_eq_false hc)
      obtain ⟨i, _, h2, h3⟩ := this
      exact hnone i h2 h3
    rw [hmain, this]
    rfl
  · rintro ⟨i, hi, hp⟩
    have : anyTransient poll 0 (max m.toNat 1) = true :=
      (anyTransient_eq_true_iff poll 0 (max m.toNat 1)).2 ⟨i, Nat.zero_le i, hi, hp⟩
    rw [hmain, this]
    rfl

/-- Witness for C1 at `max_attempts = 2` with a transient error on the
first attempt and not-done on the second: the command fails with
`WAIT_TASK_ERROR` after both attempts. -/
theorem C1_wait_exhaustion_codes_witness :
    (∀ i, i < max (2 : Int).toNat 1 →
      (fun i => if i = 0 then PollResult.transientError else PollResult.notDone) i ≠
        PollResult.done) ∧
    wait_for_task_or_exit
      (fun i => if i = 0 then PollResult.transientError else PollResult.notDone) 2 =
      .failed .waitTaskError (max (2 : Int).toNat 1) :=
  ⟨by decide,
   (C1_wait_exhaustion_codes
      (fun i => if i = 0 then PollResult.transientError else PollResult.notDone) 2
      (by decide)).2 ⟨0, by decide, by decide⟩⟩

/-- C9: the task-wait loop always terminates, making at most
`max(max_attempts, 1)` poll calls before returning or exiting — for every
poll-outcome sequence and every integer `max_attempts`, including zero
and negative values. -/
theorem C9_wait_loop_attempt_bound (poll : Nat → PollResult) (m : Int) :
    attemptsUsed (wait_for_task_or_exit poll m) ≤ max m.toNat 1 := by
  have h0 : (0 : Nat) < max m.toNat 1 := by omega
  exact waitGo_attempts_le poll m (max m.toNat 1 - 0) 0 false rfl h0

/- ## Lemmas about transfer-specification parsing -/

theorem wellFormedSpec_destruct (t : String) (h : wellFormedSpec t = true) :
    ∃ src dst, pySplit ':' t = [src, dst] ∧
      src.data.isEmpty = false ∧ dst.data.isEmpty = false := by
  unfold wellFormedSpec at h
  split at h
  · next src dst heq =>
    refine ⟨src, dst, heq, ?_, ?_⟩ <;> simp_all
  · exact absurd h (by simp)

/-- C5: for every list of well-formed transfer specifications handed to
the `transfer` command, a spec with exactly one directory-style side is
rejected with the `INVALID_TRANSFER_SPECIFICATION` error exit and the
command never reaches the `tc.submit_transfer` call, while a list whose
specs all have both or neither side directory-style is accepted, each
spec becoming a recursive directory item or a single-file item
respectively. -/
theorem C5_mixed_spec_rejected_before_submission (ts : List String)
    (h : ∀ t ∈ ts, wellFormedSpec t = true) :
    ((∃ t ∈ ts, mixedSlash t = true) →
      (∃ u ∈ ts, mixedSlash u = true ∧ parseSpecs ts = .invalidSpec u) ∧
        parseAccepted (parseSpecs ts) = false) ∧
    ((∀ t ∈ ts, mixedSlash t = false) → parseSpecs ts = .ok (ts.map itemOf)) := by
  induction ts with
  | nil =>
    constructor
    · rintro ⟨t, ht, -⟩; exact absurd ht (List.not_mem_nil t)
    · intro; rfl
  | cons t rest ih =>
    obtain ⟨src, dst, hps, hs, hd⟩ := wellFormedSpec_destruct t (h t (List.mem_cons_self t rest))
    have ihr := ih (fun u hu => h u (List.mem_cons_of_mem t hu))
    by_cases hmix : mixedSlash t = true
    · have hone : (endsWithSlash src ^^ endsWithSlash dst) = true := by
        unfold mixedSlash at hmix; rw [hps] at hmix; exact hmix
      have hr : parseSpecs (t :: rest) = .invalidSpec t := by
        simp only [parseSpecs, hps, hs, hd]
        cases h1 : endsWithSlash src <;> cases h2 : endsWithSlash dst <;>
          simp_all [Bool.xor]
      constructor
      · intro
        exact ⟨⟨t, List.mem_cons_self t rest, hmix, hr⟩, by rw [hr]; rfl⟩
      · intro hall
        exact absurd (hall t (List.mem_cons_self t rest)) (by simp [hmix])
    · have hmix' : mixedSlash t = false := by simpa using hmix
      have hsame : endsWithSlash src = endsWithSlash dst := by
        unfold mixedSlash at hmix'; rw [hps] at hmix'
        cases h1 : endsWithSlash src <;> cases h2 : endsWithSlash dst <;> simp_all [Bool.xor]
      have hitem : itemOf t =
          (if endsWithSlash src && endsWithSlash dst then ParseItem.dirItem src dst
           else ParseItem.fileItem src dst) := by
        unfold itemOf; rw [hps]
      constructor
      · rintro ⟨u, hu, hmu⟩
        rcases List.mem_cons.1 hu with huh | hut
        · exact absurd hmu (by rw [huh]; exact hmix)
        · obtain ⟨⟨v, hv, hmv, hrv⟩, -⟩ := ihr.1 ⟨u, hut, hmu⟩
          have hr : parseSpecs (t :: rest) = .invalidSpec v := by
            simp only [parseSpecs, hps, hs, hd]
            cases h1 : endsWithSlash src <;> rw [h1] at hsame <;>
              simp [← hsame, hrv]
          exact ⟨⟨v, List.mem_cons_of_mem t hv, hmv, hr⟩, by rw [hr]; rfl⟩
      · intro hall
        have hok := ihr.2 (fun u hu => hall u (List.mem_cons_of_mem t hu))
        simp only [parseSpecs, hps, hs, hd, List.map_cons, hitem]
        cases h1 : endsWithSlash src <;> rw [h1] at hsame <;> simp [← hsame, hok]

/-- Witness for C5: the list `["/a/:/b/", "/a:/b"]` is accepted, as a
recursive directory item followed by a single-file item. -/
theorem C5_mixed_spec_rejected_before_submission_witness :
    (∀ t ∈ ["/a/:/b/", "/a:/b"], wellFormedSpec t = true) ∧
    parseSpecs ["/a/:/b/", "/a:/b"] =
      .ok [ParseItem.dirItem "/a/" "/b/", ParseItem.fileItem "/a" "/b"] :=
  ⟨by decide,
   (C5_mixed_spec_rejected_before_submission ["/a/:/b/", "/a:/b"] (by decide)).2 (by decide)⟩

/-- C10: the spec-validation loop of the `transfer` command is
exception-free only on specs that split on `:` into exactly two nonempty
parts; on any other spec (no colon, several colons, or an empty side) the
command dies with an unhandled Python exception — not with the
`INVALID_TRANSFER_SPECIFICATION` error exit. -/
theorem C10_malformed_spec_raises (t : String) (rest : List String) :
    (wellFormedSpec t = false → parseSpecs (t :: rest) = .pythonError t) ∧
    (wellFormedSpec t = true → parseSpecs [t] ≠ .pythonError t) := by
  constructor
  · intro hbad
    match hps : pySplit ':' t with
    | [src, dst] =>
      have : src.data.isEmpty || dst.data.isEmpty := by
        unfold wellFormedSpec at hbad; rw [hps] at hbad
        cases h1 : src.data.isEmpty <;> cases h2 : dst.data.isEmpty <;> simp_all
      simp only [parseSpecs, hps, this, if_true]
    | [] => simp only [parseSpecs, hps]
    | [a] => simp only [parseSpecs, hps]
    | a :: b :: c :: l => simp only [parseSpecs, hps]
  · intro hgood
    obtain ⟨src, dst, hps, hs, hd⟩ := wellFormedSpec_destruct t hgood
    simp only [parseSpecs, hps, hs, hd]
    cases h1 : endsWithSlash src <;> cases h2 : endsWithSlash dst <;> simp

/-- Witness for C10: the spec `"a:b:c"` (two colons) raises the two-way
unpack exception; the well-formed spec `"a:b"` does not raise. -/
theorem C10_malformed_spec_raises_witness :
    (wellFormedSpec "a:b:c" = false ∧ parseSpecs ["a:b:c"] = .pythonError "a:b:c") ∧
    (wellFormedSpec "a:b" = true ∧ parseSpecs ["a:b"] ≠ .pythonError "a:b") :=
  ⟨⟨by decide, (C10_malformed_spec_raises "a:b:c" []).1 (by decide)⟩,
   ⟨by decide, (C10_malformed_spec_raises "a:b" []).2 (by decide)⟩⟩

/- ## Decimal representation: injectivity of the attribute-key indices -/

theorem myDigits_lt (n : Nat) (h : n < 10) : myDigits n = [Nat.digitChar n] := by
  rw [myDigits, dif_pos h]

theorem myDigits_ge (n : Nat) (h : ¬ n < 10) :
    myDigits n = myDigits (n / 10) ++ [Nat.digitChar (n % 10)] := by
  rw [myDigits, dif_neg h]

theorem toDigitsCore_eq_myDigits :
    ∀ (f n : Nat) (acc : List Char), n < f →
      Nat.toDigitsCore 10 f n acc = myDigits n ++ acc := by
  intro f
  induction f with
  | zero => intro n acc h; omega
  | succ f ih =>
    intro n acc h
    rw [Nat.toDigitsCore]
    by_cases h10 : n / 10 = 0
    · have hn : n < 10 := by omega
      rw [if_pos h10, myDigits_lt n hn, Nat.mod_eq_of_lt hn]
      rfl
    · rw [if_neg h10, ih (n / 10) _ (by omega), myDigits_ge n (by omega)]
      simp

theorem nat_repr_eq_myDigits (n : Nat) : Nat.repr n = (myDigits n).asString := by
  rw [Nat.repr, Nat.toDigits, toDigitsCore_eq_myDigits (n + 1) n [] (Nat.lt_succ_self n)]
  simp

theorem digitChar_inj_lt_ten (a b : Nat) (ha : a < 10) (hb : b < 10)
    (h : Nat.digitChar a = Nat.digitChar b) : a = b := by
  interval_cases a <;> interval_cases b <;> revert h <;> decide

theorem myDigits_ne_nil (n : Nat) : myDigits n ≠ [] := by
  by_cases h : n < 10
  · rw [myDigits_lt n h]; simp
  · rw [myDigits_ge n h]; simp

theorem myDigits_inj : ∀ m n : Nat, myDigits m = myDigits n → m = n := by
  intro m
  induction m using Nat.strong_induction_on with
  | _ m ih =>
    intro n h
    by_cases hm : m < 10 <;> by_cases hn : n < 10
    · rw [myDigits_lt m hm, myDigits_lt n hn] at h
      exact digitChar_inj_lt_ten m n hm hn (List.cons_eq_cons.1 h).1
    · rw [myDigits_lt m hm, myDigits_ge n hn] at h
      have hlen := congrArg List.length h
      simp at hlen
      exact absurd hlen (myDigits_ne_nil (n / 10))
    · rw [myDigits_ge m hm, myDigits_lt n hn] at h
      have hlen := congrArg List.length h
      simp at hlen
      exact absurd hlen (myDigits_ne_nil (m / 10))
    · rw [myDigits_ge m hm, myDigits_ge n hn] at h
      obtain ⟨h1, h2⟩ := List.append_inj' h rfl
      have hdiv : m / 10 = n / 10 := ih (m / 10) (by omega) (n / 10) h1
      have hmod : m % 10 = n % 10 :=
        digitChar_inj_lt_ten _ _ (Nat.mod_lt m (by omega)) (Nat.mod_lt n (by omega))
          (List.cons_eq_cons.1 h2).1
      omega

theorem nat_repr_inj (m n : Nat) (h : Nat.repr m = Nat.repr n) : m = n := by
  rw [nat_repr_eq_myDigits, nat_repr_eq_myDigits] at h
  exact myDigits_inj m n (congrArg String.data h)

theorem activationKey_inj : Function.Injective activationKey := by
  intro i j h
  unfold activationKey at h
  have hd := congrArg String.data h
  simp only [String.data_append] at hd
  have hlist := List.append_cancel_left hd
  exact nat_repr_inj i j (by apply String.ext; exact hlist)

/- ## Lemmas about manual activation -/

theorem manualGo_noninteractive (env : TransferEnv) (hni : env.interactive = false) :
    ∀ (eps : List String) (idx : Nat) (st : ManualState),
      manualGo env eps idx st =
        .done
          { unactivated := st.unactivated ++ eps
            record := writeKeys st.record idx eps
            writtenKeys := st.writtenKeys ++ (List.range' idx eps.length).map activationKey
            manualDone := st.manualDone
            processed := st.processed ++ eps } := by
  intro eps
  induction eps with
  | nil => intro idx st; simp [manualGo, writeKeys]
  | cons e rest ih =>
    intro idx st
    rw [manualGo, hni]
    simp only [Bool.false_eq_true, if_false, ih]
    simp [writeKeys, List.length_cons, List.range'_succ, List.append_assoc]

/-- C2 counterexample: with one `ENDPOINT_ACTIVATION_REQUIRED_0`
attribute already present on the current job record, non-interactive
manual activation of one endpoint writes the key
`ENDPOINT_ACTIVATION_REQUIRED_0` again — the `enumerate` index is not
chosen to avoid collision with the existing attribute, contradicting the
claim. -/
theorem C2_cex_index_collision :
    manualWrittenKeys
        (activate_endpoints_manually
          ⟨fun _ => false, fun _ => "", fun _ => false, fun _ => false, false⟩
          [(activationKey 0, AttrValue.str "previously-recorded-endpoint")]
          ["my-endpoint"]) = [activationKey 0] ∧
    getAttr [(activationKey 0, AttrValue.str "previously-recorded-endpoint")]
        (activationKey 0) = some (AttrValue.str "previously-recorded-endpoint") := by
  decide

/-- C2 (amended): in non-interactive mode, manual activation of N
unresolved endpoints writes exactly N pairwise-distinct
`ENDPOINT_ACTIVATION_REQUIRED_<index>` attributes onto the current job
record, the indices being the enumeration positions `0 .. N-1` —
regardless of (and possibly overwriting) any such attribute already
present on the record — and returns all N endpoints as still-unresolved. -/
theorem C2_noninteractive_manual_writes (env : TransferEnv) (record : JobAd)
    (endpoints : List String) (hni : env.interactive = false) :
    manualWrittenKeys (activate_endpoints_manually env record endpoints) =
      (List.range endpoints.length).map activationKey ∧
    (manualWrittenKeys (activate_endpoints_manually env record endpoints)).Nodup ∧
    manualUnactivated (activate_endpoints_manually env record endpoints) = endpoints := by
  unfold activate_endpoints_manually
  rw [manualGo_noninteractive env hni]
  refine ⟨by simp [manualWrittenKeys, List.range_eq_range'], ?_, by simp [manualUnactivated]⟩
  simp only [manualWrittenKeys, List.nil_append, ← List.range_eq_range']
  exact (List.nodup_range _).map activationKey_inj

/-- Witness for C2 (amended) on two endpoints and an empty record. -/
theorem C2_noninteractive_manual_writes_witness :
    (TransferEnv.interactive
        ⟨fun _ => false, fun _ => "", fun _ => false, fun _ => false, false⟩ = false) ∧
    manualWrittenKeys
        (activate_endpoints_manually
          ⟨fun _ => false, fun _ => "", fun _ => false, fun _ => false, false⟩
          [] ["endpoint-one", "endpoint-two"]) =
      (List.range (["endpoint-one", "endpoint-two"] : List String).length).map activationKey :=
  ⟨rfl,
   (C2_noninteractive_manual_writes
      ⟨fun _ => false, fun _ => "", fun _ => false, fun _ => false, false⟩
      [] ["endpoint-one", "endpoint-two"] rfl).1⟩

/- ## Lemmas about the activation orchestrator -/

theorem auto_spec (env : TransferEnv) (l : List String) :
    (activate_endpoints_automatically env l).2 = l ∧
    (activate_endpoints_automatically env l).1 =
      l.filter fun e => decide (env.autoCode e = "AutoActivationFailed") := by
  induction l with
  | nil => exact ⟨rfl, rfl⟩
  | cons e rest ih =>
    simp only [activate_endpoints_automatically]
    refine ⟨by simp [ih.1], ?_⟩
    by_cases hc : env.autoCode e = "AutoActivationFailed"
    · simp [hc, ih.2, List.filter_cons]
    · simp [hc, ih.2, List.filter_cons]

theorem manualGo_interactive_done (env : TransferEnv) (hint : env.interactive = true) :
    ∀ (eps : List String) (idx : Nat) (st r : ManualState),
      manualGo env eps idx st = .done r →
      r.unactivated = st.unactivated ∧ r.record = st.record ∧
      r.writtenKeys = st.writtenKeys ∧ r.processed = st.processed ++ eps ∧
      (∀ e, e ∈ st.manualDone → e ∈ r.manualDone) ∧
      (∀ e, e ∈ eps → env.postActive e = true ∨ e ∈ r.manualDone) := by
  intro eps
  induction eps with
  | nil =>
    intro idx st r h
    rw [manualGo] at h
    cases h
    simp
  | cons e rest ih =>
    intro idx st r h
    rw [manualGo, hint] at h
    simp only [if_true] at h
    by_cases h1 : (env.postActive e || st.manualDone.contains e) = true
    · rw [if_pos h1] at h
      obtain ⟨c1, c2, c3, c4, c5, c6⟩ := ih _ _ _ h
      refine ⟨c1, c2, c3, by simp [c4], c5, ?_⟩
      intro x hx
      rcases List.mem_cons.1 hx with rfl | hx'
      · rcases (Bool.or_eq_true _ _).mp h1 with hp | hc
        · exact Or.inl hp
        · exact Or.inr (c5 x (List.elem_iff.mp hc))
      · exact c6 x hx'
    · rw [if_neg h1] at h
      by_cases h2 : env.manualActivatable e = true
      · rw [if_pos h2] at h
        obtain ⟨c1, c2, c3, c4, c5, c6⟩ := ih _ _ _ h
        refine ⟨c1, c2, c3, by simp [c4], ?_, ?_⟩
        · intro x hx
          exact c5 x (by simp [hx])
        · intro x hx
          rcases List.mem_cons.1 hx with rfl | hx'
          · exact Or.inr (c5 x (by simp))
          · exact c6 x hx'
      · rw [if_neg h2] at h
        cases h

theorem orExit_success_fst (env : TransferEnv) (record : JobAd) (eps : List String)
    (fs : List (String × Bool))
    (h : (activate_endpoints_or_exit env record eps).outcome = .success fs) :
    fs.map Prod.fst = eps := by
  simp only [activate_endpoints_or_exit] at h
  cases hm : activate_endpoints_manually env record
      (activate_endpoints_automatically env (eps.filter fun e => !env.initActive e)).1 with
  | diverge p => rw [hm] at h; simp at h
  | done r =>
    rw [hm] at h
    dsimp only at h
    by_cases hemp : r.unactivated.isEmpty = true
    · rw [if_pos hemp] at h
      simp only [ActOutcome.success.injEq] at h
      rw [← h]
      simp [Function.comp_def]
    · rw [if_neg hemp] at h
      simp at h

/-- C4: the Endpoint Activation Orchestrator succeeds only if every
endpoint ends ACTIVE — under the transfer-service contract that a
non-rejected auto-activation leaves the endpoint active and that an
already-active endpoint stays active — and otherwise exits with
`ENDPOINT_ACTIVATION_ERROR` naming exactly the endpoints it could not
activate (those that were not initially active and whose auto-activation
was rejected, deferred by non-interactive manual activation); and when
every endpoint already reports ACTIVE it succeeds without one
auto-activation or manual-activation call. -/
theorem C4_activation_success_iff_active (env : TransferEnv) (record : JobAd)
    (endpoints : List String)
    (hauto : ∀ e ∈ endpoints, env.initActive e = false →
      env.autoCode e ≠ "AutoActivationFailed" → env.postActive e = true)
    (hstay : ∀ e ∈ endpoints, env.initActive e = true → env.postActive e = true) :
    (∀ fs, (activate_endpoints_or_exit env record endpoints).outcome = .success fs →
      fs.map Prod.fst = endpoints ∧ ∀ p ∈ fs, p.2 = true) ∧
    (∀ named,
      (activate_endpoints_or_exit env record endpoints).outcome = .activationError named →
      named ≠ [] ∧
        named = endpoints.filter
          (fun e => decide (env.autoCode e = "AutoActivationFailed") && !env.initActive e)) ∧
    ((∀ e ∈ endpoints, env.initActive e = true) →
      (activate_endpoints_or_exit env record endpoints).autoCalls = [] ∧
      (activate_endpoints_or_exit env record endpoints).manualProcessed = [] ∧
      ∃ fs, (activate_endpoints_or_exit env record endpoints).outcome = .success fs) := by
  refine ⟨?_, ?_, ?_⟩
  · intro fs hfs
    refine ⟨orExit_success_fst env record endpoints fs hfs, ?_⟩
    simp only [activate_endpoints_or_exit] at hfs
    cases hm : activate_endpoints_manually env record
        (activate_endpoints_automatically env (endpoints.filter fun e => !env.initActive e)).1 with
    | diverge p => rw [hm] at hfs; dsimp only at hfs; simp at hfs
    | done r =>
      rw [hm] at hfs
      dsimp only at hfs
      rw [activate_endpoints_manually] at hm
      by_cases hemp : r.unactivated.isEmpty = true
      · rw [if_pos hemp] at hfs
        simp only [ActOutcome.success.injEq] at hfs
        rw [← hfs]
        intro p hp
        obtain ⟨e, he, rfl⟩ := List.mem_map.1 hp
        by_cases hinit : env.initActive e = true
        · simp [hstay e he hinit]
        · have hinitf : env.initActive e = false := by simpa using hinit
          by_cases haf : env.autoCode e = "AutoActivationFailed"
          · have hmem : e ∈ (activate_endpoints_automatically env
                (endpoints.filter fun e => !env.initActive e)).1 := by
              rw [(auto_spec env _).2]
              exact List.mem_filter.2 ⟨List.mem_filter.2 ⟨he, by simp [hinitf]⟩, by simp [haf]⟩
            cases hI : env.interactive with
            | false =>
              rw [manualGo_noninteractive env hI _ 0 _] at hm
              have hru : r.unactivated = (activate_endpoints_automatically env
                  (endpoints.filter fun e => !env.initActive e)).1 := by
                injection hm with h'
                rw [← h']
                simp
              rw [hru] at hemp
              simp at hemp
              rw [hemp] at hmem
              exact absurd hmem (List.not_mem_nil e)
            | true =>
              have hcl := manualGo_interactive_done env hI _ 0 ⟨[], record, [], [], []⟩ r hm
              rcases hcl.2.2.2.2.2 e hmem with hp' | hmd
              · simp [hp']
              · have hc : r.manualDone.contains e = true := List.elem_eq_true_of_mem hmd
                simp only [hc, Bool.or_true]
          · simp [hauto e he hinitf haf]
      · rw [if_neg hemp] at hfs
        simp at hfs
  · intro named hn
    simp only [activate_endpoints_or_exit] at hn
    cases hm : activate_endpoints_manually env record
        (activate_endpoints_automatically env (endpoints.filter fun e => !env.initActive e)).1 with
    | diverge p => rw [hm] at hn; dsimp only at hn; simp at hn
    | done r =>
      rw [hm] at hn
      dsimp only at hn
      rw [activate_endpoints_manually] at hm
      by_cases hemp : r.unactivated.isEmpty = true
      · rw [if_pos hemp] at hn; simp at hn
      · rw [if_neg hemp] at hn
        simp only [ActOutcome.activationError.injEq] at hn
        cases hI : env.interactive with
        | true =>
          have hcl := manualGo_interactive_done env hI _ 0 ⟨[], record, [], [], []⟩ r hm
          refine absurd ?_ hemp
          rw [hcl.1]
          rfl
        | false =>
          rw [manualGo_noninteractive env hI _ 0 _] at hm
          have hru : r.unactivated = (activate_endpoints_automatically env
              (endpoints.filter fun e => !env.initActive e)).1 := by
            injection hm with h'
            rw [← h']
            simp
          constructor
          · rw [← hn]
            intro hnil
            rw [hnil] at hemp
            exact hemp rfl
          · rw [← hn, hru, (auto_spec env _).2, List.filter_filter]
  · intro hall
    have hnil : endpoints.filter (fun e => !env.initActive e) = [] := by
      rw [List.filter_eq_nil_iff]
      intro a ha
      simp [hall a ha]
    have hres : activate_endpoints_or_exit env record endpoints =
        ⟨.success (endpoints.map fun e => (e, env.postActive e || List.contains [] e)),
          [], [], record⟩ := by
      simp only [activate_endpoints_or_exit, hnil]
      rfl
    rw [hres]
    exact ⟨rfl, rfl, ⟨_, rfl⟩⟩

/-- Witness for C4: two endpoints that already report ACTIVE; the
orchestrator succeeds with no auto- and no manual-activation call. -/
theorem C4_activation_success_iff_active_witness :
    (∀ e ∈ ["ep-src", "ep-dst"],
      TransferEnv.initActive
        ⟨fun _ => true, fun _ => "X", fun _ => true, fun _ => false, false⟩ e = true) ∧
    ((activate_endpoints_or_exit
        ⟨fun _ => true, fun _ => "X", fun _ => true, fun _ => false, false⟩
        [] ["ep-src", "ep-dst"]).autoCalls = [] ∧
     (activate_endpoints_or_exit
        ⟨fun _ => true, fun _ => "X", fun _ => true, fun _ => false, false⟩
        [] ["ep-src", "ep-dst"]).manualProcessed = [] ∧
     ∃ fs, (activate_endpoints_or_exit
        ⟨fun _ => true, fun _ => "X", fun _ => true, fun _ => false, false⟩
        [] ["ep-src", "ep-dst"]).outcome = .success fs) :=
  ⟨by decide,
   (C4_activation_success_iff_active
      ⟨fun _ => true, fun _ => "X", fun _ => true, fun _ => false, false⟩
      [] ["ep-src", "ep-dst"] (by decide) (by decide)).2.2 (by decide)⟩

/-- C8 counterexample: one endpoint, not initially active, whose
auto-activation response is not `"AutoActivationFailed"` but which a
fresh status query still reports as not active.  The orchestrator
reports success anyway: the post-success query result is only logged, so
the endpoint is not re-verified to be ACTIVE before success — refuting
the re-verification part of the claim. -/
theorem C8_cex_success_without_reverification :
    (activate_endpoints_or_exit
        ⟨fun _ => false, fun _ => "AutoActivated.CachedCredential", fun _ => false,
          fun _ => false, false⟩
        [] ["flaky-endpoint"]).outcome = .success [("flaky-endpoint", false)] ∧
    (activate_endpoints_or_exit
        ⟨fun _ => false, fun _ => "AutoActivated.CachedCredential", fun _ => false,
          fun _ => false, false⟩
        [] ["flaky-endpoint"]).autoCalls = ["flaky-endpoint"] := by
  decide

/-- C8 (amended): in the automatic-activation step exactly one
auto-activation call is made per endpoint of the remaining set, in
order; the endpoints whose response is `"AutoActivationFailed"` are
exactly the ones kept in the needs-work set; and before reporting
success the orchestrator makes one fresh status query per endpoint — but
its result is only logged, not verified to be ACTIVE. -/
theorem C8_auto_one_call_per_endpoint (env : TransferEnv) :
    (∀ remaining : List String,
      (activate_endpoints_automatically env remaining).2 = remaining ∧
      (activate_endpoints_automatically env remaining).1 =
        remaining.filter fun e => decide (env.autoCode e = "AutoActivationFailed")) ∧
    (∀ (record : JobAd) (endpoints : List String) (fs : List (String × Bool)),
      (activate_endpoints_or_exit env record endpoints).outcome = .success fs →
      fs.map Prod.fst = endpoints) :=
  ⟨fun remaining => auto_spec env remaining,
   fun record endpoints fs h => orExit_success_fst env record endpoints fs h⟩

/-- Witness for C8 (amended): a two-endpoint remaining set, one rejected
by auto-activation and one not; and a concrete successful run whose
final status queries cover exactly the given endpoints. -/
theorem C8_auto_one_call_per_endpoint_witness :
    ((activate_endpoints_automatically
        ⟨fun _ => false, fun e => if e = "bad" then "AutoActivationFailed" else "OK",
          fun _ => true, fun _ => false, false⟩
        ["bad", "good"]).2 = ["bad", "good"] ∧
     (activate_endpoints_automatically
        ⟨fun _ => false, fun e => if e = "bad" then "AutoActivationFailed" else "OK",
          fun _ => true, fun _ => false, false⟩
        ["bad", "good"]).1 = ["bad"]) ∧
    ((activate_endpoints_or_exit
        ⟨fun _ => true, fun _ => "X", fun _ => true, fun _ => false, false⟩
        [] ["only-endpoint"]).outcome = .success [("only-endpoint", true)] ∧
     [("only-endpoint", true)].map Prod.fst = ["only-endpoint"]) :=
  ⟨⟨((C8_auto_one_call_per_endpoint
        ⟨fun _ => false, fun e => if e = "bad" then "AutoActivationFailed" else "OK",
          fun _ => true, fun _ => false, false⟩).1 ["bad", "good"]).1,
    by decide⟩,
   ⟨by decide,
    (C8_auto_one_call_per_endpoint
        ⟨fun _ => true, fun _ => "X", fun _ => true, fun _ => false, false⟩).2
      [] ["only-endpoint"] [("only-endpoint", true)] (by decide)⟩⟩

/- ## Lemmas about job-record attribute writes and the release scan -/

theorem getAttr_setAttr (ad : JobAd) (k k' : String) (v : AttrValue) :
    getAttr (setAttr ad k v) k' = if k = k' then some v else getAttr ad k' := by
  induction ad with
  | nil => rfl
  | cons p rest ih =>
    obtain ⟨k0, v0⟩ := p
    by_cases h0 : k0 = k
    · subst h0
      rw [setAttr, if_pos rfl]
      by_cases h1 : k0 = k'
      · subst h1; simp [getAttr]
      · simp [getAttr, h1]
    · rw [setAttr, if_neg h0]
      by_cases h1 : k0 = k'
      · subst h1
        have hne : ¬ k = k0 := fun hk => h0 hk.symm
        simp [getAttr, hne]
      · simp [getAttr, h1, ih]

theorem getAttr_resetAll (l : List (String × String)) (ad : JobAd) (k : String) :
    getAttr (l.foldl (fun a p => setAttr a p.2 AttrValue.undefined) ad) k =
      if k ∈ l.map Prod.snd then some AttrValue.undefined else getAttr ad k := by
  induction l generalizing ad with
  | nil => simp
  | cons p rest ih =>
    rw [List.foldl_cons, ih]
    by_cases h1 : k ∈ rest.map Prod.snd
    · simp [h1]
    · rw [if_neg h1, getAttr_setAttr]
      by_cases h2 : p.2 = k
      · simp [h2]
      · have : ¬ k ∈ (p.2 :: rest.map Prod.snd) := by
          intro hc
          rcases List.mem_cons.1 hc with rfl | hc'
          · exact h2 rfl
          · exact h1 hc'
        simp only [List.map_cons, if_neg h2, if_neg this]

theorem manualGo_interactive_no_diverge (env : TransferEnv) (hint : env.interactive = true) :
    ∀ (eps : List String) (idx : Nat) (st : ManualState),
      (∀ e ∈ eps, (env.postActive e || env.manualActivatable e) = true) →
      ∃ r, manualGo env eps idx st = .done r := by
  intro eps
  induction eps with
  | nil => intro idx st _; exact ⟨st, rfl⟩
  | cons e rest ih =>
    intro idx st h
    rw [manualGo, hint]
    simp only [if_true]
    by_cases h1 : (env.postActive e || st.manualDone.contains e) = true
    · rw [if_pos h1]
      exact ih _ _ (fun x hx => h x (List.mem_cons_of_mem e hx))
    · rw [if_neg h1]
      have h2 : env.manualActivatable e = true := by
        rcases (Bool.or_eq_true _ _).mp (h e (List.mem_cons_self e rest)) with hp | ha
        · exact absurd (by rw [hp]; rfl) h1
        · exact ha
      rw [if_pos h2]
      exact ih _ _ (fun x hx => h x (List.mem_cons_of_mem e hx))

theorem manual_done_of_condition (env : TransferEnv) (current : JobAd)
    (eps : List String)
    (hint : env.interactive = true → ∀ e ∈ eps,
      (env.postActive e || env.manualActivatable e) = true) :
    ∃ r, activate_endpoints_manually env current eps = .done r := by
  cases hI : env.interactive with
  | true =>
    rw [activate_endpoints_manually]
    exact manualGo_interactive_no_diverge env hI eps 0 _ (hint hI)
  | false =>
    exact ⟨_, by rw [activate_endpoints_manually]; exact manualGo_noninteractive env hI eps 0 _⟩

theorem releaseGo_complete (env : TransferEnv) (hasToken : Bool) :
    ∀ (jobs doneJobs : List Job) (released : List Nat) (current : JobAd),
      (∀ j ∈ jobs, manualEndpointsOf j.attrs ≠ [] →
        hasToken = true ∧
        (env.interactive = true → ∀ p ∈ manualEndpointsOf j.attrs,
          (env.postActive p.1 || env.manualActivatable p.1) = true)) →
      (releaseGo env hasToken jobs doneJobs released current).outcome = .exit0 ∧
      (releaseGo env hasToken jobs doneJobs released current).released =
        released ++ jobs.map Job.clusterId := by
  intro jobs
  induction jobs with
  | nil => intro doneJobs released current _; rw [releaseGo]; simp
  | cons job rest ih =>
    intro doneJobs released current h
    rw [releaseGo]
    by_cases hd : (manualEndpointsOf job.attrs).isEmpty = true
    · rw [if_pos hd]
      have hr := ih (doneJobs ++ [job]) (released ++ [job.clusterId]) current
        (fun j hj => h j (List.mem_cons_of_mem job hj))
      exact ⟨hr.1, by rw [hr.2]; simp⟩
    · rw [if_neg hd]
      have hne : manualEndpointsOf job.attrs ≠ [] := by simpa using hd
      obtain ⟨htok, hintc⟩ := h job (List.mem_cons_self job rest) hne
      subst htok
      simp only [Bool.not_true]
      rw [if_neg (by simp)]
      obtain ⟨r, hman⟩ := manual_done_of_condition env current
        ((manualEndpointsOf job.attrs).map Prod.fst)
        (fun hI e he => by
          obtain ⟨p, hp, rfl⟩ := List.mem_map.1 he
          exact hintc hI p hp)
      simp only [hman]
      have hr := ih (doneJobs ++ [{ job with attrs := List.foldl (fun a p => setAttr a p.2 AttrValue.undefined) job.attrs (manualEndpointsOf job.attrs) }]) (released ++ [job.clusterId]) r.record (fun j hj => h j (List.mem_cons_of_mem job hj))
      exact ⟨hr.1, by rw [hr.2]; simp⟩

theorem releaseGo_noToken_abort (env : TransferEnv) :
    ∀ (pre : List Job) (j : Job) (rest doneJobs : List Job) (released : List Nat)
      (current : JobAd),
      (∀ j' ∈ pre, manualEndpointsOf j'.attrs = []) →
      manualEndpointsOf j.attrs ≠ [] →
      (releaseGo env false (pre ++ j :: rest) doneJobs released current).outcome =
        .exitedWith .authorizationError ∧
      (releaseGo env false (pre ++ j :: rest) doneJobs released current).released =
        released ++ pre.map Job.clusterId := by
  intro pre
  induction pre with
  | nil =>
    intro j rest doneJobs released current _ hj
    rw [List.nil_append, releaseGo]
    rw [if_neg (by simpa using hj)]
    simp
  | cons p pre' ih =>
    intro j rest doneJobs released current hpre hj
    rw [List.cons_append, releaseGo]
    rw [if_pos (by simp [hpre p (List.mem_cons_self p pre')])]
    have hr := ih j rest (doneJobs ++ [p]) (released ++ [p.clusterId]) current
      (fun j' hj' => hpre j' (List.mem_cons_of_mem p hj')) hj
    exact ⟨hr.1, by rw [hr.2]; simp⟩

/-- C3 counterexample: a job record owned by this tool that is not held
(and has no pending activation attributes) is nevertheless processed and
released by the `release` command — the scan never filters on the hold
state, so `release` does not process exactly the currently-held records. -/
theorem C3_cex_nonheld_job_processed :
    (release ⟨fun _ => false, fun _ => "", fun _ => false, fun _ => false, false⟩ false
        [⟨7, false, []⟩] []).released = [7] ∧
    Job.held ⟨7, false, []⟩ = false ∧
    (release ⟨fun _ => false, fun _ => "", fun _ => false, fun _ => false, false⟩ false
        [⟨7, false, []⟩] []).outcome = .exit0 := by
  decide

/-- C3 (amended): the `release` command processes every job record owned
by this tool regardless of its hold state, and — whenever the scan
completes — unconditionally instructs the scheduler to release every one
of them, in order, regardless of whether the recorded endpoints of a job
were resolved. -/
theorem C3_release_processes_every_owned_job (env : TransferEnv) (hasToken : Bool)
    (jobs : List Job) (current : JobAd)
    (h : ∀ j ∈ jobs, manualEndpointsOf j.attrs ≠ [] →
      hasToken = true ∧
      (env.interactive = true → ∀ p ∈ manualEndpointsOf j.attrs,
        (env.postActive p.1 || env.manualActivatable p.1) = true)) :
    (release env hasToken jobs current).outcome = .exit0 ∧
    (release env hasToken jobs current).released = jobs.map Job.clusterId := by
  have hr := releaseGo_complete env hasToken jobs [] [] current h
  exact ⟨hr.1, by rw [release, hr.2]; simp⟩

/-- Witness for C3 (amended): a non-held job with no pending attributes
and a held job with one still-unresolved endpoint (non-interactive run):
both are released and the command exits 0. -/
theorem C3_release_processes_every_owned_job_witness :
    (∀ j ∈ ([⟨1, false, []⟩,
        ⟨2, true, [(activationKey 0, AttrValue.str "stuck-endpoint")]⟩] : List Job),
      manualEndpointsOf j.attrs ≠ [] →
      true = true ∧
      ((TransferEnv.interactive
          ⟨fun _ => false, fun _ => "", fun _ => false, fun _ => false, false⟩) = true →
        ∀ p ∈ manualEndpointsOf j.attrs,
          (TransferEnv.postActive
              ⟨fun _ => false, fun _ => "", fun _ => false, fun _ => false, false⟩ p.1 ||
            TransferEnv.manualActivatable
              ⟨fun _ => false, fun _ => "", fun _ => false, fun _ => false, false⟩ p.1) = true)) ∧
    (release ⟨fun _ => false, fun _ => "", fun _ => false, fun _ => false, false⟩ true
        [⟨1, false, []⟩, ⟨2, true, [(activationKey 0, AttrValue.str "stuck-endpoint")]⟩]
        []).released =
      ([⟨1, false, []⟩,
        ⟨2, true, [(activationKey 0, AttrValue.str "stuck-endpoint")]⟩] : List Job).map
        Job.clusterId :=
  ⟨by decide,
   (C3_release_processes_every_owned_job
      ⟨fun _ => false, fun _ => "", fun _ => false, fun _ => false, false⟩ true
      [⟨1, false, []⟩, ⟨2, true, [(activationKey 0, AttrValue.str "stuck-endpoint")]⟩]
      [] (by decide)).2⟩

/-- C6 counterexample: with no refresh token configured, the scan dies
with `AUTHORIZATION_ERROR` at the first held job that needs manual
resolution — the second job is never attempted and the command does not
exit 0, refuting the per-job failure isolation the claim describes. -/
theorem C6_cex_failure_aborts_scan :
    (release ⟨fun _ => false, fun _ => "", fun _ => false, fun _ => false, false⟩ false
        [⟨1, true, [(activationKey 0, AttrValue.str "ep-one")]⟩,
         ⟨2, true, [(activationKey 0, AttrValue.str "ep-two")]⟩] []).outcome =
      .exitedWith .authorizationError ∧
    (release ⟨fun _ => false, fun _ => "", fun _ => false, fun _ => false, false⟩ false
        [⟨1, true, [(activationKey 0, AttrValue.str "ep-one")]⟩,
         ⟨2, true, [(activationKey 0, AttrValue.str "ep-two")]⟩] []).released = [] := by
  decide

/-- C6 (amended): `release` has no per-job failure isolation.  A failure
while resolving one job (here: `get_transfer_client_or_exit` exiting with
`AUTHORIZATION_ERROR` because no refresh token is configured) terminates
the whole command at the first job that needs manual resolution: earlier
trouble-free jobs were released, but the failing job and all remaining
jobs are not attempted, and the exit code is non-zero.  Only when no
per-job step fails does the command attempt every job and exit 0. -/
theorem C6_release_no_failure_isolation (env : TransferEnv) :
    (∀ (current : JobAd) (pre : List Job) (j : Job) (rest : List Job),
      (∀ j' ∈ pre, manualEndpointsOf j'.attrs = []) →
      manualEndpointsOf j.attrs ≠ [] →
      (release env false (pre ++ j :: rest) current).outcome =
        .exitedWith .authorizationError ∧
      (release env false (pre ++ j :: rest) current).released = pre.map Job.clusterId) ∧
    (∀ (current : JobAd) (jobs : List Job),
      (∀ j ∈ jobs, manualEndpointsOf j.attrs = []) →
      (release env false jobs current).outcome = .exit0 ∧
      (release env false jobs current).released = jobs.map Job.clusterId) := by
  constructor
  · intro current pre j rest hpre hj
    have hr := releaseGo_noToken_abort env pre j rest [] [] current hpre hj
    exact ⟨hr.1, by rw [release, hr.2]; simp⟩
  · intro current jobs hall
    have hr := releaseGo_complete env false jobs [] [] current
      (fun j hj hne => absurd (hall j hj) hne)
    exact ⟨hr.1, by rw [release, hr.2]; simp⟩

/-- Witness for C6 (amended): one clean job, then a job needing manual
resolution, with no token: the clean job is released, the command then
aborts with `AUTHORIZATION_ERROR`. -/
theorem C6_release_no_failure_isolation_witness :
    (∀ j' ∈ ([⟨1, false, []⟩] : List Job), manualEndpointsOf j'.attrs = []) ∧
    (manualEndpointsOf
        (Job.attrs ⟨2, true, [(activationKey 0, AttrValue.str "ep")]⟩) ≠ []) ∧
    (release ⟨fun _ => false, fun _ => "", fun _ => false, fun _ => false, false⟩ false
        ([⟨1, false, []⟩] ++ ⟨2, true, [(activationKey 0, AttrValue.str "ep")]⟩ :: [])
        []).outcome = .exitedWith .authorizationError ∧
    (release ⟨fun _ => false, fun _ => "", fun _ => false, fun _ => false, false⟩ false
        ([⟨1, false, []⟩] ++ ⟨2, true, [(activationKey 0, AttrValue.str "ep")]⟩ :: [])
        []).released = ([⟨1, false, []⟩] : List Job).map Job.clusterId :=
  ⟨by decide, by decide,
   ((C6_release_no_failure_isolation
      ⟨fun _ => false, fun _ => "", fun _ => false, fun _ => false, false⟩).1
      [] [⟨1, false, []⟩] ⟨2, true, [(activationKey 0, AttrValue.str "ep")]⟩ []
      (by decide) (by decide)).1,
   ((C6_release_no_failure_isolation
      ⟨fun _ => false, fun _ => "", fun _ => false, fun _ => false, false⟩).1
      [] [⟨1, false, []⟩] ⟨2, true, [(activationKey 0, AttrValue.str "ep")]⟩ []
      (by decide) (by decide)).2⟩

/-- C7 counterexample: a non-interactive `release` run over a held job
whose recorded endpoint never becomes ACTIVE (manual activation defers it
again) still resets the `ENDPOINT_ACTIVATION_REQUIRED_0` attribute to the
`Undefined` sentinel — the write-back loop ignores the result of
`activate_endpoints_manually`, so an attribute of an endpoint that did
not become ACTIVE is not left unchanged. -/
theorem C7_cex_reset_without_activation :
    (release ⟨fun _ => false, fun _ => "", fun _ => false, fun _ => false, false⟩ true
        [⟨5, true, [(activationKey 0, AttrValue.str "never-active-endpoint")]⟩]
        []).jobsAfter =
      [⟨5, true, [(activationKey 0, AttrValue.undefined)]⟩] ∧
    TransferEnv.postActive
      ⟨fun _ => false, fun _ => "", fun _ => false, fun _ => false, false⟩
      "never-active-endpoint" = false ∧
    TransferEnv.manualActivatable
      ⟨fun _ => false, fun _ => "", fun _ => false, fun _ => false, false⟩
      "never-active-endpoint" = false := by
  decide

/-- C7 (amended): for each job record, whenever its processing completes,
the `release` command resets the kept attribute key of every enumerated
endpoint to the `Undefined` sentinel — unconditionally, whether or not
that endpoint became ACTIVE (the return value of manual activation is
discarded) — and leaves every other attribute of the record unchanged. -/
theorem C7_release_resets_every_enumerated_key (env : TransferEnv) (job : Job)
    (current : JobAd)
    (hint : env.interactive = true → ∀ p ∈ manualEndpointsOf job.attrs,
      (env.postActive p.1 || env.manualActivatable p.1) = true) :
    (release env true [job] current).jobsAfter =
      [{ job with attrs := List.foldl (fun a p => setAttr a p.2 AttrValue.undefined) job.attrs (manualEndpointsOf job.attrs) }] ∧
    (∀ k ∈ (manualEndpointsOf job.attrs).map Prod.snd,
      getAttr (List.foldl (fun a p => setAttr a p.2 AttrValue.undefined) job.attrs (manualEndpointsOf job.attrs)) k = some AttrValue.undefined) ∧
    (∀ k, k ∉ (manualEndpointsOf job.attrs).map Prod.snd →
      getAttr (List.foldl (fun a p => setAttr a p.2 AttrValue.undefined) job.attrs (manualEndpointsOf job.attrs)) k = getAttr job.attrs k) := by
  refine ⟨?_, ?_, ?_⟩
  · rw [release, releaseGo]
    by_cases hd : (manualEndpointsOf job.attrs).isEmpty = true
    · have hdnil : manualEndpointsOf job.attrs = [] := by simpa using hd
      rw [if_pos hd, releaseGo]
      simp [hdnil]
    · rw [if_neg hd]
      simp only [Bool.not_true]
      rw [if_neg (by simp)]
      obtain ⟨r, hman⟩ := manual_done_of_condition env current
        ((manualEndpointsOf job.attrs).map Prod.fst)
        (fun hI e he => by
          obtain ⟨p, hp, rfl⟩ := List.mem_map.1 he
          exact hint hI p hp)
      simp only [hman]
      rw [releaseGo]
      simp
  · intro k hk
    rw [getAttr_resetAll]
    simp [hk]
  · intro k hk
    rw [getAttr_resetAll]
    simp [hk]

/-- Witness for C7 (amended): the concrete non-interactive run of the
counterexample, checked through the theorem. -/
theorem C7_release_resets_every_enumerated_key_witness :
    (TransferEnv.interactive
        ⟨fun _ => false, fun _ => "", fun _ => false, fun _ => false, false⟩ = true →
      ∀ p ∈ manualEndpointsOf
          (Job.attrs ⟨5, true, [(activationKey 0, AttrValue.str "never-active-endpoint")]⟩),
        (TransferEnv.postActive
            ⟨fun _ => false, fun _ => "", fun _ => false, fun _ => false, false⟩ p.1 ||
          TransferEnv.manualActivatable
            ⟨fun _ => false, fun _ => "", fun _ => false, fun _ => false, false⟩ p.1) = true) ∧
    (release ⟨fun _ => false, fun _ => "", fun _ => false, fun _ => false, false⟩ true
        [⟨5, true, [(activationKey 0, AttrValue.str "never-active-endpoint")]⟩]
        []).jobsAfter =
      [{ (⟨5, true, [(activationKey 0, AttrValue.str "never-active-endpoint")]⟩ : Job) with
          attrs := List.foldl (fun a p => setAttr a p.2 AttrValue.undefined) (Job.attrs ⟨5, true, [(activationKey 0, AttrValue.str "never-active-endpoint")]⟩) (manualEndpointsOf (Job.attrs ⟨5, true, [(activationKey 0, AttrValue.str "never-active-endpoint")]⟩)) }] :=
  ⟨by decide,
   (C7_release_resets_every_enumerated_key
      ⟨fun _ => false, fun _ => "", fun _ => false, fun _ => false, false⟩
      ⟨5, true, [(activationKey 0, AttrValue.str "never-active-endpoint")]⟩
      [] (by decide)).1⟩
